import Mathlib

/-!
# Verification of the IOTester communication core against its specification

Shallow embedding of the IOTester repository (Controllino/Arduino sketches and
the UDP card-polling core) in Lean 4, with theorems settling the specification
claims.

* `decodeVoltage`, `processCommand` — embedded from the Controllino serial
  command sketch (`processCommand`, `serialEvent`).
* `loopWrites`, `runWrites` — embedded from the pin-scanner sketch.
* `FrameCodec`, `CardSimulator`, `MatrixRouter`, `CardPoller` — the Python core
  modules are not present in the source tree (only their documentation,
  configuration scripts and fixtures are), so they are modelled from the spec,
  as marked in each doc comment.

Arithmetic on ADC counts is over `ℚ`: the sketch's `float` computation
`(reading / 1023.0) * 5.0` is modelled as exact rational scaling.
-/

namespace IOTester

/-! ## Controllino serial sketch: analog decode

From the `R` branch of `processCommand`:
`int reading = analogRead(pin); float voltage = (reading / 1023.0) * 5.0;`. -/

/-- Voltage decoded from a 10-bit raw ADC count, from the sketch's
`(reading / 1023.0) * 5.0`, modelled exactly over `ℚ`. -/
def decodeVoltage (reading : ℕ) : ℚ :=
  ((reading : ℚ) / 1023) * 5

/-! ## Controllino serial sketch: command processing

Embedding of `processCommand` (and the line discipline of `serialEvent`).
A completed input line (terminator characters already stripped by
`serialEvent`) is processed to at most one response line.  The
`analogRead` hardware call is a parameter `analog : ℤ → ℕ`. -/

/-- Whitespace test used by Arduino `String::trim` (C `isspace`). -/
def isSpaceChar (c : Char) : Bool :=
  c = ' ' || c = '\t' || c = '\n' || c = '\x0b' || c = '\x0c' || c = '\r'

/-- `String::trim`: strip leading and trailing whitespace. -/
def trimLine (l : List Char) : List Char :=
  ((l.dropWhile isSpaceChar).reverse.dropWhile isSpaceChar).reverse

/-- `indexOf(',')` combined with the two `substring` calls of the sketch:
`some (before, after)` splits at the first comma, `none` when there is no
comma. -/
def splitAtComma : List Char → Option (List Char × List Char)
  | [] => none
  | c :: rest =>
    if c = ',' then some ([], rest)
    else (splitAtComma rest).map (fun p => (c :: p.1, p.2))

/-- Digit-consuming loop of C `atol`: accumulate leading decimal digits,
stop at the first non-digit. -/
def parseDigits : List Char → ℕ → ℕ
  | c :: rest, acc =>
    if c.isDigit then parseDigits rest (10 * acc + (c.toNat - 48)) else acc
  | [], acc => acc

/-- Two's-complement wrap of an integer to a signed `bits`-bit machine
word, as AVR integer arithmetic and narrowing assignments do. -/
def wrapSigned (bits : ℕ) (z : ℤ) : ℤ :=
  (z + 2 ^ (bits - 1)) % 2 ^ bits - 2 ^ (bits - 1)

/-- Arduino `String::toInt` (avr-libc `atol`): skip leading whitespace,
optional sign, then leading digits; `0` when no digits.  avr-libc's
`atol` accumulates in a 32-bit `long` with wraparound (no clamping), so
the result is the accumulated value wrapped to signed 32 bits. -/
def toIntArduino (l : List Char) : ℤ :=
  match l.dropWhile isSpaceChar with
  | '-' :: rest => wrapSigned 32 (-(parseDigits rest 0 : ℤ))
  | '+' :: rest => wrapSigned 32 (parseDigits rest 0 : ℤ)
  | l' => wrapSigned 32 (parseDigits l' 0 : ℤ)

/-- Thousandths of a volt printed for a raw ADC count: the sketch computes
`(reading / 1023.0) * 5.0` and prints it with three decimals; Arduino
`Print` rounds by adding `0.0005`, so the printed value is
`⌊reading·5000/1023 + 1/2⌋` thousandths, which over `ℕ` is
`(10000·reading + 1023) / 2046`. -/
def voltageMillis (reading : ℕ) : ℕ :=
  (10000 * reading + 1023) / 2046

/-- Zero-padded three-digit fractional part. -/
def pad3 (n : ℕ) : List Char :=
  (if n < 10 then ['0', '0'] else if n < 100 then ['0'] else []) ++
    (toString n).toList

/-- `Serial.println(voltage, 3)`: integer part, `'.'`, three decimals. -/
def printVoltage3 (reading : ℕ) : List Char :=
  (toString (voltageMillis reading / 1000)).toList ++
    '.' :: pad3 (voltageMillis reading % 1000)

/-- Body of the sketch's `processCommand` after the `trim` call, on the
trimmed line: `none` means no response line is printed, `some r` means
exactly the line `r` is printed.  The head `c0` of the line is the
sketch's `cmd.charAt(0)`.  `pin` and `value` are declared `int` in the
sketch, so the `long` returned by `toInt()` is truncated to a signed
16-bit value before the pin is used or echoed. -/
def processTrimmed (analog : ℤ → ℕ) : List Char → Option (List Char)
  | [] => none
  | c0 :: tl =>
    if c0 :: tl = ['?'] then some "OK".toList
    else
      match splitAtComma (c0 :: tl) with
      | none => some "ERROR:Invalid command format".toList
      | some (_, pinStr) =>
        if c0 = 'W' then
          match splitAtComma pinStr with
          | none => some "ERROR:Missing value for write".toList
          | some (pStr, vStr) =>
            some ("OK:W,".toList ++
              (toString (wrapSigned 16 (toIntArduino pStr))).toList ++
              ',' :: (toString (wrapSigned 16 (toIntArduino vStr))).toList)
        else if c0 = 'R' then
          let pin := wrapSigned 16 (toIntArduino pinStr)
          some ("OK:R,".toList ++ (toString pin).toList ++
            ',' :: printVoltage3 (analog pin))
        else some "ERROR:Unknown command".toList

/-- Embedding of the sketch's `processCommand` on a completed input line. -/
def processCommand (analog : ℤ → ℕ) (cmd : List Char) : Option (List Char) :=
  processTrimmed analog (trimLine cmd)

/-! ## Pin-scanner sketch

Embedding of the scanner that walks all digital and analog output pins,
raising each one for `onTime` milliseconds and lowering it again.  States
are pin-level assignments; `delay` does not change pin levels, so the
states "at any instant" are exactly the states between consecutive
`digitalWrite` calls.  The `CONTROLLINO_*` pin constants are opaque board
numbers, so the two pin arrays are parameters. -/

/-- One `digitalWrite(pin, value)` call. -/
structure PinWrite where
  pin : ℕ
  value : Bool

/-- Pin levels after one `digitalWrite`. -/
def applyWrite (s : ℕ → Bool) (e : PinWrite) : ℕ → Bool :=
  fun q => if q = e.pin then e.value else s q

/-- Pin levels after a sequence of `digitalWrite` calls. -/
def applyWrites (s : ℕ → Bool) (es : List PinWrite) : ℕ → Bool :=
  es.foldl applyWrite s

/-- Every pin-level state visited while executing a sequence of writes,
including the state before the first and after the last write. -/
def statesFrom (s : ℕ → Bool) : List PinWrite → List (ℕ → Bool)
  | [] => [s]
  | e :: es => s :: statesFrom (applyWrite s e) es

/-- `setup()` of the scanner: drive every listed pin LOW. -/
def setupWrites (digitalPins analogPins : List ℕ) : List PinWrite :=
  (digitalPins ++ analogPins).map (fun p => ⟨p, false⟩)

/-- One `for` scan over a pin list: each pin is driven HIGH, held for
`onTime`, then driven LOW, before the next pin is touched. -/
def scanWrites (pins : List ℕ) : List PinWrite :=
  pins.flatMap (fun p => [⟨p, true⟩, ⟨p, false⟩])

/-- One `loop()` iteration: scan the digital list, then the analog list. -/
def loopWrites (digitalPins analogPins : List ℕ) : List PinWrite :=
  scanWrites digitalPins ++ scanWrites analogPins

/-- `n` consecutive `loop()` iterations. -/
def runWrites (digitalPins analogPins : List ℕ) (n : ℕ) : List PinWrite :=
  (List.replicate n (loopWrites digitalPins analogPins)).flatten

/-- At most one of the listed output pins is HIGH in state `s`. -/
def AtMostOneHigh (pins : List ℕ) (s : ℕ → Bool) : Prop :=
  ∀ p ∈ pins, ∀ q ∈ pins, s p = true → s q = true → p = q

/-- Every listed output pin is LOW in state `s`. -/
def AllLow (pins : List ℕ) (s : ℕ → Bool) : Prop :=
  ∀ p ∈ pins, s p = false

/-! ## FrameCodec

The Python `FrameCodec` module is not in the source tree; only the fixture
documentation (response-file layout, header constant `0xAA55`) is.  The
codec is therefore modelled from the spec's wire-format section. -/

/-- Response-frame header constant `0xAA55`, laid out as the two bytes
`AA 55` (fixture files, bytes 0–1). -/
def HEADER : List ℕ := [0xAA, 0x55]

/-- The `len` bytes of `raw` starting at byte offset `off`. -/
def fieldBytes (raw : List ℕ) (off len : ℕ) : List ℕ :=
  (List.range len).map (fun j => raw.getD (off + j) 0)

/-- 16-bit little-endian analog channel `k`: bytes `16+2k` (low) and
`17+2k` (high). -/
def analogChannel (raw : List ℕ) (k : ℕ) : ℕ :=
  raw.getD (16 + 2 * k) 0 + 256 * raw.getD (17 + 2 * k) 0

/-- FrameCodec failure taxonomy entry for invalid frames. -/
inductive CodecError
  | FormatError
deriving DecidableEq

/-- Decoded 64-byte response frame, fields per the wire-format section. -/
structure ResponseFrame where
  digitalInputs : List ℕ
  ttlStatus : List ℕ
  matrixRow : List ℕ
  analog : List ℕ
  matrixData : List ℕ
  encoder : List ℕ
  absEncoder : List ℕ
deriving DecidableEq

/-- Modelled from the spec: `decode(rawBytes) -> ResponseFrame` of the
missing `FrameCodec` module.  Fails with `FormatError` when the length is
not exactly 64 bytes or the header bytes mismatch; otherwise reads
digital inputs at 2–9, TTL at 10–11, matrix row at 12–15, sixteen 2-byte
little-endian analog channels at 16–47, matrix data at 48–51, encoder at
52–59 and absolute encoder at 60–63. -/
def decode (raw : List ℕ) : Except CodecError ResponseFrame :=
  if raw.length = 64 then
    if raw.take 2 = HEADER then
      .ok { digitalInputs := fieldBytes raw 2 8
            ttlStatus := fieldBytes raw 10 2
            matrixRow := fieldBytes raw 12 4
            analog := (List.range 16).map (analogChannel raw)
            matrixData := fieldBytes raw 48 4
            encoder := fieldBytes raw 52 8
            absEncoder := fieldBytes raw 60 4 }
    else .error .FormatError
  else .error .FormatError

/-- Per-card snapshot: decoded frame, liveness flag, last-update time. -/
structure CardSnapshot where
  frame : Option ResponseFrame
  liveness : Bool
  lastUpdate : ℕ
deriving DecidableEq

/-- Modelled from the spec: how the missing poller code applies a received
datagram to its card's snapshot — a `FormatError` aborts decoding with no
snapshot mutation, a valid frame updates it with liveness true. -/
def applyDatagram (snap : CardSnapshot) (raw : List ℕ) (now : ℕ) :
    CardSnapshot :=
  match decode raw with
  | .error _ => snap
  | .ok f => { frame := some f, liveness := true, lastUpdate := now }

/-- The matrix-owned subset of a response frame: row echo and data echo. -/
structure MatrixFields where
  row : List ℕ
  dataEcho : List ℕ
deriving DecidableEq

/-- The matrix-owned fields of a decoded frame. -/
def matrixFieldsOf (f : ResponseFrame) : MatrixFields :=
  ⟨f.matrixRow, f.matrixData⟩

/-- Overwrite bytes `off .. off + bs.length - 1` of `raw` with `bs`,
leaving every other byte and the length unchanged. -/
def writeBytes (raw : List ℕ) (off : ℕ) (bs : List ℕ) : List ℕ :=
  (List.range raw.length).map (fun i =>
    if off ≤ i ∧ i < off + bs.length then bs.getD (i - off) 0
    else raw.getD i 0)

/-- Modelled from the spec: encoding the matrix-owned fields of the
missing `FrameCodec` writes the row echo back at bytes 12–15 and the data
echo at bytes 48–51 of a response-frame image. -/
def encodeMatrix (m : MatrixFields) (raw : List ℕ) : List ℕ :=
  writeBytes (writeBytes raw 12 m.row) 48 m.dataEcho

/-! ## CardSimulator

`localhost_simulator.py` is not in the source tree; only its documentation
is: the simulator listens on each card's send port, and when exactly 32
bytes are received it sends that card's fixed 64-byte canned response to
the card's receive endpoint. -/

/-- A UDP endpoint (ip, port). -/
structure Endpoint where
  ip : List Char
  port : ℕ
deriving DecidableEq

/-- Per-card simulator configuration: canned response and reply endpoint. -/
structure SimCard where
  cardId : ℕ
  receiveEndpoint : Endpoint
  response : List ℕ
deriving DecidableEq

/-- Modelled from the spec: the reaction of the missing
`localhost_simulator.py` to one received datagram — a 32-byte datagram is
answered with the card's canned response sent to the card's receive
endpoint, any other length is ignored (no reply). -/
def simulatorReply (c : SimCard) (datagram : List ℕ) :
    Option (Endpoint × List ℕ) :=
  if datagram.length = 32 then some (c.receiveEndpoint, c.response)
  else none

/-! ## MatrixRouter

`matrix_router.py` is not in the source tree; only its module description
is.  The router is modelled from the spec's `connect` contract. -/

/-- A pin resolved by the registry to (card, matrix row, matrix column). -/
structure PinLoc where
  card : ℕ
  row : ℕ
  col : ℕ
deriving DecidableEq

/-- An active pin-to-pin connection with its resolved matrix locations. -/
structure Connection where
  pinA : ℕ
  pinB : ℕ
  locA : PinLoc
  locB : PinLoc
deriving DecidableEq

/-- Cumulative routing state: the pending/active connections of the cycle. -/
structure RouterState where
  active : List Connection
deriving DecidableEq

/-- MatrixRouter failure taxonomy entry for conflicting requests. -/
inductive RouteError
  | RoutingError
deriving DecidableEq

/-- Does connection `c` claim matrix row `row` on card `card`? -/
def claimsRow (c : Connection) (card row : ℕ) : Bool :=
  (c.locA.card = card && c.locA.row = row) ||
    (c.locB.card = card && c.locB.row = row)

/-- Is `c` the connection for exactly the requested pin pair? -/
def samePins (c : Connection) (pinA pinB : ℕ) : Bool :=
  c.pinA = pinA && c.pinB = pinB

/-- Modelled from the spec: `connect(pinA, pinB)` of the missing
`matrix_router.py`.  Resolves both pins through the registry; fails with
`RoutingError` when a pin does not resolve, when the pins resolve to
incompatible cards, or when a target row is already claimed by a
different pending connection in the same cycle; otherwise records the new
connection. -/
def connect (registry : ℕ → Option PinLoc) (compatible : ℕ → ℕ → Bool)
    (st : RouterState) (pinA pinB : ℕ) : Except RouteError RouterState :=
  match registry pinA, registry pinB with
  | some la, some lb =>
    if !(compatible la.card lb.card) then .error .RoutingError
    else if st.active.any (fun c =>
        (claimsRow c la.card la.row || claimsRow c lb.card lb.row) &&
          !(samePins c pinA pinB)) then .error .RoutingError
    else .ok ⟨⟨pinA, pinB, la, lb⟩ :: st.active⟩
  | _, _ => .error .RoutingError

/-- Routing state seen by the caller after a connect request: a rejected
request leaves the previous state in place. -/
def connectResult (registry : ℕ → Option PinLoc)
    (compatible : ℕ → ℕ → Bool) (st : RouterState) (pinA pinB : ℕ) :
    RouterState :=
  match connect registry compatible st pinA pinB with
  | .error _ => st
  | .ok st' => st'

/-- Read-only view of the active connections. -/
def currentRouting (st : RouterState) : List Connection :=
  st.active

/-! ## CardPoller and PollScheduler

The poller/scheduler modules are not in the source tree; only their
configuration (`Frequency_Hz`, `Communication_Timeout`) and documentation
are.  Time is abstracted to cycle counts: one cycle spans one
communication-timeout deadline. -/

/-- Poller state-machine phases. -/
inductive PollerPhase
  | IDLE
  | WAIT_RESPONSE
  | ACK
  | TIMEOUT
deriving DecidableEq

/-- One card's poller: current phase and owned snapshot slot. -/
structure PollerState where
  phase : PollerPhase
  snapshot : CardSnapshot
deriving DecidableEq

/-- The decoded frame of the datagram received before the deadline, if a
datagram arrived and decoded successfully. -/
def validFrame (arrival : Option (List ℕ)) : Option ResponseFrame :=
  arrival.bind (fun raw => (decode raw).toOption)

/-- Modelled from the spec: one polling cycle of the missing `CardPoller`.
`arrival` is the datagram received before the communication-timeout
deadline, if any.  Returns the phases visited during the cycle and the
poller state at its end: a valid frame gives ACK and a fresh snapshot
with liveness true; otherwise the deadline elapses, giving TIMEOUT,
liveness false, and return to IDLE for automatic retry. -/
def pollerCycle (p : PollerState) (arrival : Option (List ℕ)) (now : ℕ) :
    List PollerPhase × PollerState :=
  match validFrame arrival with
  | some f =>
    ([.WAIT_RESPONSE, .ACK, .IDLE], ⟨.IDLE, ⟨some f, true, now⟩⟩)
  | none =>
    ([.WAIT_RESPONSE, .TIMEOUT, .IDLE],
      ⟨.IDLE, { p.snapshot with liveness := false }⟩)

/-- Modelled from the spec: one cycle of the missing `PollScheduler` —
every enabled card's poller runs independently against its own received
datagram; disabled cards are untouched. -/
def fleetCycle (fleet : ℕ → PollerState) (enabled : ℕ → Bool)
    (arrivals : ℕ → Option (List ℕ)) (now : ℕ) : ℕ → PollerState :=
  fun i =>
    if enabled i then (pollerCycle (fleet i) (arrivals i) now).2
    else fleet i

/-- `n` scheduler cycles; cycle `k` sees the datagrams `arrivalsAt k` and
publishes at time `k`. -/
def fleetRun (fleet : ℕ → PollerState) (enabled : ℕ → Bool)
    (arrivalsAt : ℕ → ℕ → Option (List ℕ)) : ℕ → ℕ → PollerState
  | 0 => fleet
  | n + 1 =>
    fleetCycle (fleetRun fleet enabled arrivalsAt n) enabled
      (arrivalsAt n) n

end IOTester

open IOTester

theorem splitAtComma_eq_none {l : List Char} (h : ',' ∉ l) :
    splitAtComma l = none := by
  induction l with
  | nil => rfl
  | cons c rest ih =>
    simp only [List.mem_cons, not_or] at h
    simp only [splitAtComma, if_neg (Ne.symm h.1), ih h.2, Option.map_none']

theorem splitAtComma_append (w rest : List Char) (hw : ',' ∉ w) :
    splitAtComma (w ++ ',' :: rest) = some (w, rest) := by
  induction w with
  | nil => simp [splitAtComma]
  | cons c w' ih =>
    simp only [List.mem_cons, not_or] at hw
    simp only [List.cons_append, splitAtComma, if_neg (Ne.symm hw.1),
      List.append_eq, ih hw.2, Option.map_some']

theorem splitAtComma_isSome {l : List Char} (h : ',' ∈ l) :
    (splitAtComma l).isSome := by
  induction l with
  | nil => simp at h
  | cons c rest ih =>
    by_cases hc : c = ','
    · subst hc; simp [splitAtComma]
    · have hr : ',' ∈ rest := by
        rcases List.mem_cons.mp h with h1 | h1
        · exact absurd h1.symm hc
        · exact h1
      simp only [splitAtComma, if_neg hc]
      simpa using ih hr

/-- C9 (amended): every completed input line that is non-empty after
trimming gets exactly one response line, determined by the line's content
together with the current analog reading for `R` commands: `?` yields
`OK`; a line with no comma that is not `?` yields
`ERROR:Invalid command format`; `W` with only one comma yields
`ERROR:Missing value for write`; a well-formed `W,pin,value` yields
`OK:W,<pin>,<value>` with the parsed integers truncated to the AVR's
signed 16-bit `int` before being echoed; `R,pin` yields
`OK:R,<pin>,<voltage>` where the voltage is decoded from the analog
reading of the 16-bit-truncated parsed pin; any other leading command
character yields `ERROR:Unknown command`; lines empty after trimming
produce no reply. -/
theorem c9_serial_responses (analog : ℤ → ℕ) (s : List Char) :
    (trimLine s ≠ [] → (processCommand analog s).isSome) ∧
    (trimLine s = [] → processCommand analog s = none) ∧
    (trimLine s = ['?'] → processCommand analog s = some "OK".toList) ∧
    (trimLine s ≠ [] → trimLine s ≠ ['?'] → ',' ∉ trimLine s →
      processCommand analog s = some "ERROR:Invalid command format".toList) ∧
    (∀ w rest, trimLine s = w ++ ',' :: rest → ',' ∉ w → ',' ∉ rest →
      w.headD ' ' = 'W' →
      processCommand analog s = some "ERROR:Missing value for write".toList) ∧
    (∀ w p v, trimLine s = w ++ ',' :: (p ++ ',' :: v) → ',' ∉ w → ',' ∉ p →
      w.headD ' ' = 'W' →
      processCommand analog s =
        some ("OK:W,".toList ++
          (toString (wrapSigned 16 (toIntArduino p))).toList ++
          ',' :: (toString (wrapSigned 16 (toIntArduino v))).toList)) ∧
    (∀ w rest, trimLine s = w ++ ',' :: rest → ',' ∉ w →
      w.headD ' ' = 'R' →
      processCommand analog s =
        some ("OK:R,".toList ++
          (toString (wrapSigned 16 (toIntArduino rest))).toList ++
          ',' :: printVoltage3 (analog (wrapSigned 16 (toIntArduino rest))))) ∧
    (∀ w rest, trimLine s = w ++ ',' :: rest →
      (w ++ ',' :: rest).headD ' ' ≠ 'W' → (w ++ ',' :: rest).headD ' ' ≠ 'R' →
      processCommand analog s = some "ERROR:Unknown command".toList) := by
  refine ⟨?_, ?_, ?_, ?_, ?_, ?_, ?_, ?_⟩
  · intro h1
    rw [processCommand]
    rcases ht : trimLine s with _ | ⟨c0, tl⟩
    · exact absurd ht h1
    · by_cases h2 : c0 :: tl = ['?']
      · simp [processTrimmed, h2]
      · rcases hsp : splitAtComma (c0 :: tl) with _ | ⟨b, pinStr⟩
        · simp [processTrimmed, h2, hsp]
        · by_cases hW : c0 = 'W'
          · subst hW
            rcases hsp2 : splitAtComma pinStr with _ | ⟨pStr, vStr⟩ <;>
              simp [processTrimmed, h2, hsp, hsp2]
          · by_cases hR : c0 = 'R'
            · subst hR
              simp [processTrimmed, h2, hsp]
            · simp [processTrimmed, h2, hsp, hW, hR]
  · intro h1
    rw [processCommand, h1]
    rfl
  · intro h2
    rw [processCommand, h2]
    rfl
  · intro h1 h2 h3
    rcases ht : trimLine s with _ | ⟨c0, tl⟩
    · exact absurd ht h1
    · rw [ht] at h2 h3
      rw [processCommand, ht]
      simp only [processTrimmed, if_neg h2, splitAtComma_eq_none h3]
  · intro w rest ht hw hrest hWhead
    have hwne : w ≠ [] := by
      intro h; rw [h] at hWhead; exact absurd hWhead (by decide)
    obtain ⟨a, w', rfl⟩ := List.exists_cons_of_ne_nil hwne
    have ha : a = 'W' := by simpa using hWhead
    subst ha
    have h2 : ('W' :: (w' ++ ',' :: rest)) ≠ ['?'] := by
      intro heq; simp at heq
    have hsp := splitAtComma_append ('W' :: w') rest hw
    rw [List.cons_append] at hsp
    rw [processCommand, ht, List.cons_append]
    simp only [processTrimmed, if_neg h2, hsp, splitAtComma_eq_none hrest]
    simp
  · intro w p v ht hw hp hWhead
    have hwne : w ≠ [] := by
      intro h; rw [h] at hWhead; exact absurd hWhead (by decide)
    obtain ⟨a, w', rfl⟩ := List.exists_cons_of_ne_nil hwne
    have ha : a = 'W' := by simpa using hWhead
    subst ha
    have h2 : ('W' :: (w' ++ ',' :: (p ++ ',' :: v))) ≠ ['?'] := by
      intro heq; simp at heq
    have hsp := splitAtComma_append ('W' :: w') (p ++ ',' :: v) hw
    rw [List.cons_append] at hsp
    rw [processCommand, ht, List.cons_append]
    simp only [processTrimmed, if_neg h2, hsp, splitAtComma_append p v hp]
    simp
  · intro w rest ht hw hRhead
    have hwne : w ≠ [] := by
      intro h; rw [h] at hRhead; exact absurd hRhead (by decide)
    obtain ⟨a, w', rfl⟩ := List.exists_cons_of_ne_nil hwne
    have ha : a = 'R' := by simpa using hRhead
    subst ha
    have h2 : ('R' :: (w' ++ ',' :: rest)) ≠ ['?'] := by
      intro heq; simp at heq
    have hsp := splitAtComma_append ('R' :: w') rest hw
    rw [List.cons_append] at hsp
    rw [processCommand, ht, List.cons_append]
    simp only [processTrimmed, if_neg h2, hsp]
    simp
  · intro w rest ht hheadW hheadR
    rcases w with _ | ⟨a, w'⟩
    · have h2 : (',' :: rest) ≠ ['?'] := by intro heq; simp at heq
      have hsp : splitAtComma (',' :: rest) = some ([], rest) :=
        splitAtComma_append [] rest (by simp)
      rw [processCommand, ht, List.nil_append]
      simp only [processTrimmed, if_neg h2, hsp]
      simp
    · have haW : a ≠ 'W' := by simpa using hheadW
      have haR : a ≠ 'R' := by simpa using hheadR
      have hmem : ',' ∈ a :: (w' ++ ',' :: rest) := by simp
      have h2 : (a :: (w' ++ ',' :: rest)) ≠ ['?'] := by
        intro heq; rw [heq] at hmem; simp at hmem
      obtain ⟨⟨b, pinStr⟩, hsp⟩ :=
        Option.isSome_iff_exists.mp (splitAtComma_isSome hmem)
      rw [processCommand, ht, List.cons_append]
      simp only [processTrimmed, if_neg h2, hsp, if_neg haW, if_neg haR]

/-- C9 counterexample: the reply to the line `R,54` differs between two
analog-reading environments, so the response is not determined totally by
the line's content — the `R` branch calls `analogRead` and echoes the
measured voltage. -/
theorem c9_reply_depends_on_reading :
    processCommand (fun _ => 0) "R,54".toList ≠
      processCommand (fun _ => 1023) "R,54".toList := by decide

/-- Witness for C9 on concrete lines of every response class, including a
pin token that overflows the AVR's 16-bit `int` (70000 wraps to 4464). -/
theorem c9_serial_responses_witness :
    processCommand (fun _ => 512) "W,2,1".toList = some "OK:W,2,1".toList ∧
    processCommand (fun _ => 512) "W,70000,1".toList =
      some "OK:W,4464,1".toList ∧
    processCommand (fun _ => 512) "R,54".toList = some "OK:R,54,2.502".toList ∧
    processCommand (fun _ => 512) "hello".toList =
      some "ERROR:Invalid command format".toList ∧
    processCommand (fun _ => 512) "X,1".toList =
      some "ERROR:Unknown command".toList ∧
    processCommand (fun _ => 512) "W,2".toList =
      some "ERROR:Missing value for write".toList ∧
    processCommand (fun _ => 512) "  ".toList = none ∧
    processCommand (fun _ => 512) " ? ".toList = some "OK".toList := by
  have h1 := c9_serial_responses (fun _ => 512) "W,2,1".toList
  have h1w := c9_serial_responses (fun _ => 512) "W,70000,1".toList
  have h2 := c9_serial_responses (fun _ => 512) "R,54".toList
  have h3 := c9_serial_responses (fun _ => 512) "hello".toList
  have h4 := c9_serial_responses (fun _ => 512) "X,1".toList
  have h5 := c9_serial_responses (fun _ => 512) "W,2".toList
  have h6 := c9_serial_responses (fun _ => 512) "  ".toList
  have h7 := c9_serial_responses (fun _ => 512) " ? ".toList
  refine ⟨?_, ?_, ?_, ?_, ?_, ?_, ?_, ?_⟩
  · rw [h1.2.2.2.2.2.1 ['W'] ['2'] ['1'] (by decide) (by decide) (by decide)
      (by decide)]
    decide
  · rw [h1w.2.2.2.2.2.1 ['W'] "70000".toList ['1'] (by decide) (by decide)
      (by decide) (by decide)]
    decide
  · rw [h2.2.2.2.2.2.2.1 ['R'] "54".toList (by decide) (by decide) (by decide)]
    decide
  · exact h3.2.2.2.1 (by decide) (by decide) (by decide)
  · exact h4.2.2.2.2.2.2.2 ['X'] ['1'] (by decide) (by decide) (by decide)
  · exact h5.2.2.2.2.1 ['W'] ['2'] (by decide) (by decide) (by decide) (by decide)
  · exact h6.2.1 (by decide)
  · exact h7.2.2.1 (by decide)

/-- C1: for every 10-bit raw count `r ≤ 1023` the decoded voltage equals
`r/1023 × 5.0`; raw count `1023` gives `≈5.000 V` within `±0.001`, and raw
count `0` gives exactly `0 V`. -/
theorem c1_analog_decode (r : ℕ) (h : r ≤ 1023) :
    decodeVoltage r = (r : ℚ) / 1023 * 5 ∧
    |decodeVoltage 1023 - 5| ≤ 1/1000 ∧
    decodeVoltage 0 = 0 := by
  refine ⟨rfl, ?_, ?_⟩ <;> norm_num [IOTester.decodeVoltage]

/-- Witness for C1 at the concrete raw count 512. -/
theorem c1_analog_decode_witness :
    decodeVoltage 512 = (512 : ℚ) / 1023 * 5 ∧
    |decodeVoltage 1023 - 5| ≤ 1/1000 ∧
    decodeVoltage 0 = 0 :=
  c1_analog_decode 512 (by norm_num)

theorem applyWrites_nil (s : ℕ → Bool) : applyWrites s [] = s := rfl

theorem applyWrites_cons (s : ℕ → Bool) (e : PinWrite) (es : List PinWrite) :
    applyWrites s (e :: es) = applyWrites (applyWrite s e) es := rfl

theorem mem_statesFrom_append {t : ℕ → Bool} (a b : List PinWrite)
    (s : ℕ → Bool) (h : t ∈ statesFrom s (a ++ b)) :
    t ∈ statesFrom s a ∨ t ∈ statesFrom (applyWrites s a) b := by
  induction a generalizing s with
  | nil => exact Or.inr h
  | cons e a' ih =>
    rw [List.cons_append, statesFrom] at h
    rcases List.mem_cons.mp h with h1 | h1
    · exact Or.inl (h1 ▸ List.mem_cons_self _ _)
    · rcases ih (applyWrite s e) h1 with h2 | h2
      · exact Or.inl (List.mem_cons_of_mem _ h2)
      · exact Or.inr (applyWrites_cons s e a' ▸ h2)

theorem allLow_atMostOne {pins : List ℕ} {s : ℕ → Bool}
    (h : AllLow pins s) : AtMostOneHigh pins s := by
  intro p hp q hq hsp hsq
  rw [h p hp] at hsp
  exact absurd hsp (by simp)

theorem falseWrites_keep_low {es : List PinWrite}
    (hes : ∀ e ∈ es, e.value = false) {s : ℕ → Bool} {q : ℕ}
    (hq : s q = false) : applyWrites s es q = false := by
  induction es generalizing s with
  | nil => exact hq
  | cons e es' ih =>
    rw [applyWrites_cons]
    refine ih (fun e' he' => hes e' (List.mem_cons_of_mem _ he')) ?_
    simp only [applyWrite]
    split
    · exact hes e (List.mem_cons_self _ _)
    · exact hq

theorem allLow_setup (pins : List ℕ) (s : ℕ → Bool) :
    AllLow pins (applyWrites s (pins.map (fun p => ⟨p, false⟩))) := by
  intro p hp
  induction pins generalizing s with
  | nil => simp at hp
  | cons a rest ih =>
    rw [List.map_cons, applyWrites_cons]
    rcases List.mem_cons.mp hp with h1 | h1
    · subst h1
      refine falseWrites_keep_low ?_ ?_
      · intro e he
        simp only [List.mem_map] at he
        obtain ⟨x, hx, rfl⟩ := he
        rfl
      · simp [applyWrite]
    · exact ih _ h1

theorem scan_states_inv (U : List ℕ) (l : List ℕ) (s : ℕ → Bool)
    (hs : AllLow U s) :
    (∀ t ∈ statesFrom s (scanWrites l), AtMostOneHigh U t) ∧
    AllLow U (applyWrites s (scanWrites l)) := by
  induction l generalizing s with
  | nil =>
    constructor
    · intro t ht
      have hnil : scanWrites ([] : List ℕ) = [] := rfl
      rw [hnil, statesFrom, List.mem_singleton] at ht
      exact ht ▸ allLow_atMostOne hs
    · exact hs
  | cons p l' ih =>
    have hscan : scanWrites (p :: l') =
        ⟨p, true⟩ :: ⟨p, false⟩ :: scanWrites l' := rfl
    set s1 := applyWrite s ⟨p, true⟩ with hs1
    set s2 := applyWrite s1 ⟨p, false⟩ with hs2
    have hlow2 : AllLow U s2 := by
      intro q hq
      by_cases hqp : q = p
      · simp [hs2, hs1, applyWrite, hqp]
      · simp [hs2, hs1, applyWrite, hqp, hs q hq]
    constructor
    · intro t ht
      rw [hscan, statesFrom, statesFrom] at ht
      rcases List.mem_cons.mp ht with h1 | h1
      · exact h1 ▸ allLow_atMostOne hs
      · rcases List.mem_cons.mp h1 with h2 | h2
        · subst h2
          intro x hx y hy hsx hsy
          by_cases hxp : x = p
          · by_cases hyp : y = p
            · rw [hxp, hyp]
            · simp [hs1, applyWrite, hyp, hs y hy] at hsy
          · simp [hs1, applyWrite, hxp, hs x hx] at hsx
        · exact (ih s2 hlow2).1 t h2
    · rw [hscan, applyWrites_cons, applyWrites_cons]
      exact (ih s2 hlow2).2

theorem loop_states_inv (dps aps : List ℕ) (s : ℕ → Bool)
    (hs : AllLow (dps ++ aps) s) :
    (∀ t ∈ statesFrom s (loopWrites dps aps), AtMostOneHigh (dps ++ aps) t) ∧
    AllLow (dps ++ aps) (applyWrites s (loopWrites dps aps)) := by
  have h1 := scan_states_inv (dps ++ aps) dps s hs
  have h2 := scan_states_inv (dps ++ aps) aps _ h1.2
  constructor
  · intro t ht
    rcases mem_statesFrom_append _ _ _ ht with h3 | h3
    · exact h1.1 t h3
    · exact h2.1 t h3
  · rw [loopWrites, applyWrites, List.foldl_append]
    exact h2.2

theorem run_states_inv (dps aps : List ℕ) (s : ℕ → Bool) (n : ℕ)
    (hs : AllLow (dps ++ aps) s) :
    (∀ t ∈ statesFrom s (runWrites dps aps n), AtMostOneHigh (dps ++ aps) t) ∧
    AllLow (dps ++ aps) (applyWrites s (runWrites dps aps n)) := by
  induction n generalizing s with
  | zero =>
    constructor
    · intro t ht
      simp only [runWrites, List.replicate, List.join, statesFrom,
        List.mem_singleton] at ht
      exact ht ▸ allLow_atMostOne hs
    · exact hs
  | succ m ih =>
    have hrun : runWrites dps aps (m + 1) =
        loopWrites dps aps ++ runWrites dps aps m := by
      simp [runWrites, List.replicate]
    have h1 := loop_states_inv dps aps s hs
    have h2 := ih _ h1.2
    constructor
    · intro t ht
      rw [hrun] at ht
      rcases mem_statesFrom_append _ _ _ ht with h3 | h3
      · exact h1.1 t h3
      · exact h2.1 t h3
    · rw [hrun, applyWrites, List.foldl_append]
      exact h2.2

/-- C10: in the pin-scanner sketch, after `setup` drives all listed pins
LOW, at most one scanned output pin is HIGH at any instant during any
number of `loop()` iterations, and every iteration returns all pins LOW:
each pin is raised and driven LOW again before the next pin is raised. -/
theorem c10_at_most_one_pin_high (dps aps : List ℕ) (s0 : ℕ → Bool) (n : ℕ) :
    (∀ t ∈ statesFrom (applyWrites s0 (setupWrites dps aps))
        (runWrites dps aps n),
      AtMostOneHigh (dps ++ aps) t) ∧
    AllLow (dps ++ aps)
      (applyWrites (applyWrites s0 (setupWrites dps aps))
        (runWrites dps aps n)) :=
  run_states_inv dps aps _ n (allLow_setup (dps ++ aps) s0)

/-- Witness for C10 with concrete pin lists, after two loop iterations. -/
theorem c10_at_most_one_pin_high_witness :
    AtMostOneHigh ([2, 3] ++ [4])
      (applyWrites (fun _ => false) (setupWrites [2, 3] [4])) ∧
    AllLow ([2, 3] ++ [4])
      (applyWrites (applyWrites (fun _ => false) (setupWrites [2, 3] [4]))
        (runWrites [2, 3] [4] 2)) :=
  ⟨(c10_at_most_one_pin_high [2, 3] [4] (fun _ => false) 0).1 _
      (by rw [show runWrites [2, 3] [4] 0 = [] from rfl, statesFrom]
          exact List.mem_singleton.mpr rfl),
    (c10_at_most_one_pin_high [2, 3] [4] (fun _ => false) 2).2⟩

/-- C2: a received datagram of exactly 32 bytes is answered with the
card's pre-configured canned response sent to the card's configured
receive endpoint (64 bytes when the fixture is 64 bytes); any datagram
whose length is not 32 bytes gets no reply at all. -/
theorem c2_simulator_reply (c : SimCard) (d : List ℕ) :
    (d.length = 32 →
      simulatorReply c d = some (c.receiveEndpoint, c.response)) ∧
    (d.length ≠ 32 → simulatorReply c d = none) ∧
    (c.response.length = 64 → d.length = 32 →
      ∀ e r, simulatorReply c d = some (e, r) → r.length = 64) := by
  refine ⟨?_, ?_, ?_⟩
  · intro h; simp [simulatorReply, h]
  · intro h; simp [simulatorReply, h]
  · intro h64 h32 e r hr
    simp [simulatorReply, h32] at hr
    rw [← hr.2, h64]

/-- Witness for C2: a concrete 32-byte probe and a 3-byte probe. -/
theorem c2_simulator_reply_witness :
    simulatorReply ⟨1, ⟨"127.0.0.1".toList, 1011⟩, List.replicate 64 7⟩
        (List.replicate 32 0) =
      some (⟨"127.0.0.1".toList, 1011⟩, List.replicate 64 7) ∧
    simulatorReply ⟨1, ⟨"127.0.0.1".toList, 1011⟩, List.replicate 64 7⟩
        [1, 2, 3] = none :=
  ⟨(c2_simulator_reply _ _).1 (by simp), (c2_simulator_reply _ _).2.1 (by simp)⟩

/-- C8: the simulator is deterministic — for a fixed canned frame, any
two 32-byte probes receive byte-identical responses (the reply is a pure
function of the card's configuration). -/
theorem c8_simulator_deterministic (c : SimCard) (d1 d2 : List ℕ)
    (h1 : d1.length = 32) (h2 : d2.length = 32) :
    simulatorReply c d1 = simulatorReply c d2 ∧
    simulatorReply c d1 = some (c.receiveEndpoint, c.response) := by
  simp [simulatorReply, h1, h2]

/-- Witness for C8 on two distinct concrete 32-byte probes. -/
theorem c8_simulator_deterministic_witness :
    simulatorReply ⟨1, ⟨"127.0.0.1".toList, 1011⟩, List.replicate 64 7⟩
        (List.replicate 32 0) =
      simulatorReply ⟨1, ⟨"127.0.0.1".toList, 1011⟩, List.replicate 64 7⟩
        (List.replicate 32 255) :=
  (c8_simulator_deterministic _ _ _ (by simp) (by simp)).1

/-- C3: `decode` returns a `ResponseFrame` iff the input is exactly 64
bytes long and its first two bytes equal the header constant; otherwise
it fails with `FormatError` and the card's snapshot is left completely
unmodified. -/
theorem c3_decode_validation (raw : List ℕ) (snap : CardSnapshot) (now : ℕ) :
    ((∃ f, decode raw = .ok f) ↔ raw.length = 64 ∧ raw.take 2 = HEADER) ∧
    (¬(raw.length = 64 ∧ raw.take 2 = HEADER) →
      decode raw = .error .FormatError ∧ applyDatagram snap raw now = snap) := by
  by_cases h64 : raw.length = 64
  · by_cases hh : raw.take 2 = HEADER
    · constructor
      · simp [decode, h64, hh]
      · intro hcon; exact absurd ⟨h64, hh⟩ hcon
    · constructor
      · simp [decode, h64, hh]
      · intro _
        constructor
        · simp [decode, h64, hh]
        · simp [applyDatagram, decode, h64, hh]
  · constructor
    · simp [decode, h64]
    · intro _
      constructor
      · simp [decode, h64]
      · simp [applyDatagram, decode, h64]

/-- Witness for C3 on a concrete 3-byte input. -/
theorem c3_decode_validation_witness :
    (¬(([1, 2, 3] : List ℕ).length = 64 ∧ ([1, 2, 3] : List ℕ).take 2 = HEADER)) ∧
    decode [1, 2, 3] = .error .FormatError ∧
    applyDatagram ⟨none, false, 0⟩ [1, 2, 3] 5 = ⟨none, false, 0⟩ := by
  refine ⟨by decide, (c3_decode_validation [1, 2, 3] ⟨none, false, 0⟩ 5).2 (by decide)⟩

/-- C6: when either resolved target row of a connection request — the
row of `pinA`'s location or the row of `pinB`'s location — is already
claimed by a different pending connection in the same cycle, `connect`
fails with `RoutingError`, the router's state is unchanged, and the
previously claimed connection remains active. -/
theorem c6_connect_conflict (registry : ℕ → Option PinLoc)
    (compatible : ℕ → ℕ → Bool) (st : RouterState) (pinA pinB : ℕ)
    (la lb : PinLoc) (hA : registry pinA = some la)
    (hB : registry pinB = some lb) (c : Connection) (hc : c ∈ st.active)
    (hclaim : claimsRow c la.card la.row = true ∨
      claimsRow c lb.card lb.row = true)
    (hdiff : samePins c pinA pinB = false) :
    connect registry compatible st pinA pinB = .error .RoutingError ∧
    connectResult registry compatible st pinA pinB = st ∧
    c ∈ currentRouting (connectResult registry compatible st pinA pinB) := by
  have hconn : connect registry compatible st pinA pinB = .error .RoutingError := by
    rw [connect, hA, hB]
    by_cases hcomp : compatible la.card lb.card
    · have hany : st.active.any (fun c =>
          (claimsRow c la.card la.row || claimsRow c lb.card lb.row) &&
            !(samePins c pinA pinB)) = true :=
        List.any_eq_true.mpr
          ⟨c, hc, by rcases hclaim with h | h <;> simp [h, hdiff]⟩
      simp [hcomp, hany]
    · simp [hcomp]
  refine ⟨hconn, ?_, ?_⟩
  · rw [connectResult, hconn]
  · rw [connectResult, hconn]; exact hc

/-- C7: a cycle with no valid response before the deadline visits
TIMEOUT, marks the card's liveness false without touching its decoded
frame, and ends in IDLE so the card is polled again on the next tick; a
card that never replies has liveness false after every cycle from the
first on; and one card's arrivals never influence another card's poller
outcome within a cycle. -/
theorem c7_timeout_recovery :
    (∀ (p : PollerState) (arrival : Option (List ℕ)) (now : ℕ),
      validFrame arrival = none →
      (pollerCycle p arrival now).1 = [.WAIT_RESPONSE, .TIMEOUT, .IDLE] ∧
      (pollerCycle p arrival now).2.phase = .IDLE ∧
      (pollerCycle p arrival now).2.snapshot.liveness = false ∧
      (pollerCycle p arrival now).2.snapshot.frame = p.snapshot.frame) ∧
    (∀ (fleet : ℕ → PollerState) (enabled : ℕ → Bool)
        (arrivalsAt : ℕ → ℕ → Option (List ℕ)) (i n : ℕ),
      enabled i = true → (∀ k, validFrame (arrivalsAt k i) = none) →
      (fleetRun fleet enabled arrivalsAt (n + 1) i).snapshot.liveness = false ∧
      (fleetRun fleet enabled arrivalsAt (n + 1) i).phase = .IDLE) ∧
    (∀ (fleet : ℕ → PollerState) (enabled : ℕ → Bool)
        (arrivals1 arrivals2 : ℕ → Option (List ℕ)) (now j : ℕ),
      arrivals1 j = arrivals2 j →
      fleetCycle fleet enabled arrivals1 now j =
        fleetCycle fleet enabled arrivals2 now j) := by
  refine ⟨?_, ?_, ?_⟩
  · intro p arrival now h
    simp [pollerCycle, h]
  · intro fleet enabled arrivalsAt i n hen hnone
    rw [fleetRun, fleetCycle]
    simp [hen, pollerCycle, hnone n]
  · intro fleet enabled arrivals1 arrivals2 now j h
    rw [fleetCycle, fleetCycle, h]

/-- Witness for C7: a concrete silent card and a two-cycle run. -/
theorem c7_timeout_recovery_witness :
    (pollerCycle ⟨.IDLE, ⟨none, true, 0⟩⟩ none 3).1 =
      [.WAIT_RESPONSE, .TIMEOUT, .IDLE] ∧
    (fleetRun (fun _ => ⟨.IDLE, ⟨none, true, 0⟩⟩) (fun _ => true)
        (fun _ _ => none) 2 0).snapshot.liveness = false := by
  have h := c7_timeout_recovery
  exact ⟨(h.1 ⟨.IDLE, ⟨none, true, 0⟩⟩ none 3 rfl).1,
    (h.2.1 (fun _ => ⟨.IDLE, ⟨none, true, 0⟩⟩) (fun _ => true)
      (fun _ _ => none) 0 1 rfl (fun _ => rfl)).1⟩

/-- Witness for C6 with the pending connection `connect(1,2)` claiming
rows 0 and 1 of card 0 on a concrete registry
(`1 ↦ (0,0,0)`, `2 ↦ (0,1,0)`, `3 ↦ (0,2,0)`, `4 ↦ (0,1,1)`): the request
`connect(1,3)` conflicts on pinA's resolved row 0, and the request
`connect(3,4)` conflicts only on pinB's resolved row 1; both are rejected
with the state unchanged and the first connection still active. -/
theorem c6_connect_conflict_witness :
    connect
      (fun p => if p = 1 then some ⟨0, 0, 0⟩ else if p = 2 then some ⟨0, 1, 0⟩
        else if p = 3 then some ⟨0, 2, 0⟩ else if p = 4 then some ⟨0, 1, 1⟩
        else none)
      (fun _ _ => true)
      ⟨[⟨1, 2, ⟨0, 0, 0⟩, ⟨0, 1, 0⟩⟩]⟩ 1 3 = .error .RoutingError ∧
    connectResult
      (fun p => if p = 1 then some ⟨0, 0, 0⟩ else if p = 2 then some ⟨0, 1, 0⟩
        else if p = 3 then some ⟨0, 2, 0⟩ else if p = 4 then some ⟨0, 1, 1⟩
        else none)
      (fun _ _ => true)
      ⟨[⟨1, 2, ⟨0, 0, 0⟩, ⟨0, 1, 0⟩⟩]⟩ 1 3 = ⟨[⟨1, 2, ⟨0, 0, 0⟩, ⟨0, 1, 0⟩⟩]⟩ ∧
    (⟨1, 2, ⟨0, 0, 0⟩, ⟨0, 1, 0⟩⟩ : Connection) ∈
      currentRouting (connectResult
        (fun p => if p = 1 then some ⟨0, 0, 0⟩ else if p = 2 then some ⟨0, 1, 0⟩
          else if p = 3 then some ⟨0, 2, 0⟩ else if p = 4 then some ⟨0, 1, 1⟩
          else none)
        (fun _ _ => true)
        ⟨[⟨1, 2, ⟨0, 0, 0⟩, ⟨0, 1, 0⟩⟩]⟩ 1 3) ∧
    connect
      (fun p => if p = 1 then some ⟨0, 0, 0⟩ else if p = 2 then some ⟨0, 1, 0⟩
        else if p = 3 then some ⟨0, 2, 0⟩ else if p = 4 then some ⟨0, 1, 1⟩
        else none)
      (fun _ _ => true)
      ⟨[⟨1, 2, ⟨0, 0, 0⟩, ⟨0, 1, 0⟩⟩]⟩ 3 4 = .error .RoutingError ∧
    connectResult
      (fun p => if p = 1 then some ⟨0, 0, 0⟩ else if p = 2 then some ⟨0, 1, 0⟩
        else if p = 3 then some ⟨0, 2, 0⟩ else if p = 4 then some ⟨0, 1, 1⟩
        else none)
      (fun _ _ => true)
      ⟨[⟨1, 2, ⟨0, 0, 0⟩, ⟨0, 1, 0⟩⟩]⟩ 3 4 = ⟨[⟨1, 2, ⟨0, 0, 0⟩, ⟨0, 1, 0⟩⟩]⟩ ∧
    (⟨1, 2, ⟨0, 0, 0⟩, ⟨0, 1, 0⟩⟩ : Connection) ∈
      currentRouting (connectResult
        (fun p => if p = 1 then some ⟨0, 0, 0⟩ else if p = 2 then some ⟨0, 1, 0⟩
          else if p = 3 then some ⟨0, 2, 0⟩ else if p = 4 then some ⟨0, 1, 1⟩
          else none)
        (fun _ _ => true)
        ⟨[⟨1, 2, ⟨0, 0, 0⟩, ⟨0, 1, 0⟩⟩]⟩ 3 4) := by
  have hA := c6_connect_conflict
    (fun p => if p = 1 then some ⟨0, 0, 0⟩ else if p = 2 then some ⟨0, 1, 0⟩
      else if p = 3 then some ⟨0, 2, 0⟩ else if p = 4 then some ⟨0, 1, 1⟩
      else none)
    (fun _ _ => true) ⟨[⟨1, 2, ⟨0, 0, 0⟩, ⟨0, 1, 0⟩⟩]⟩ 1 3
    ⟨0, 0, 0⟩ ⟨0, 2, 0⟩ rfl rfl _ (List.mem_singleton.mpr rfl)
    (Or.inl (by decide)) (by decide)
  have hB := c6_connect_conflict
    (fun p => if p = 1 then some ⟨0, 0, 0⟩ else if p = 2 then some ⟨0, 1, 0⟩
      else if p = 3 then some ⟨0, 2, 0⟩ else if p = 4 then some ⟨0, 1, 1⟩
      else none)
    (fun _ _ => true) ⟨[⟨1, 2, ⟨0, 0, 0⟩, ⟨0, 1, 0⟩⟩]⟩ 3 4
    ⟨0, 2, 0⟩ ⟨0, 1, 1⟩ rfl rfl _ (List.mem_singleton.mpr rfl)
    (Or.inr (by decide)) (by decide)
  exact ⟨hA.1, hA.2.1, hA.2.2, hB.1, hB.2.1, hB.2.2⟩

theorem getD_map_range (g : ℕ → ℕ) (n i : ℕ) :
    ((List.range n).map g).getD i 0 = if i < n then g i else 0 := by
  rcases Nat.lt_or_ge i n with h | h
  · simp [List.getD_eq_getElem?_getD, List.getElem?_map, List.getElem?_range h, h]
  · rw [if_neg (Nat.not_lt.mpr h)]
    rw [List.getD_eq_default]
    simp [h]

theorem fieldBytes_getD (raw : List ℕ) (off len j : ℕ) :
    (fieldBytes raw off len).getD j 0 =
      if j < len then raw.getD (off + j) 0 else 0 :=
  getD_map_range _ len j

theorem fieldBytes_length (raw : List ℕ) (off len : ℕ) :
    (fieldBytes raw off len).length = len := by
  simp [fieldBytes]

theorem writeBytes_length (raw : List ℕ) (off : ℕ) (bs : List ℕ) :
    (writeBytes raw off bs).length = raw.length := by
  simp [writeBytes]

theorem writeBytes_getD (raw : List ℕ) (off : ℕ) (bs : List ℕ) (i : ℕ)
    (hi : i < raw.length) :
    (writeBytes raw off bs).getD i 0 =
      if off ≤ i ∧ i < off + bs.length then bs.getD (i - off) 0
      else raw.getD i 0 := by
  rw [writeBytes, getD_map_range, if_pos hi]

theorem getD_eq_getElem_of_lt (l : List ℕ) (i : ℕ) (h : i < l.length) :
    l.getD i 0 = l[i] := by
  rw [List.getD_eq_getElem?_getD, List.getElem?_eq_getElem h, Option.getD_some]

theorem ext_getD {l1 l2 : List ℕ} (hlen : l1.length = l2.length)
    (h : ∀ i, i < l1.length → l1.getD i 0 = l2.getD i 0) : l1 = l2 := by
  apply List.ext_getElem hlen
  intro i h1 h2
  have h3 := h i h1
  rwa [getD_eq_getElem_of_lt _ _ h1, getD_eq_getElem_of_lt _ _ h2] at h3

theorem writeBytes_fieldBytes (raw : List ℕ) (off n : ℕ)
    (h : off + n ≤ raw.length) :
    writeBytes raw off (fieldBytes raw off n) = raw := by
  apply ext_getD (writeBytes_length raw off (fieldBytes raw off n))
  intro i hi
  rw [writeBytes_length] at hi
  rw [writeBytes_getD _ _ _ _ hi, fieldBytes_length]
  split
  · next hc =>
    rw [fieldBytes_getD, if_pos (by omega)]
    congr 1
    omega
  · rfl

theorem decode_ok_elim {raw : List ℕ} {f : ResponseFrame}
    (h : decode raw = .ok f) :
    raw.length = 64 ∧ raw.take 2 = HEADER ∧
      f = { digitalInputs := fieldBytes raw 2 8
            ttlStatus := fieldBytes raw 10 2
            matrixRow := fieldBytes raw 12 4
            analog := (List.range 16).map (analogChannel raw)
            matrixData := fieldBytes raw 48 4
            encoder := fieldBytes raw 52 8
            absEncoder := fieldBytes raw 60 4 } := by
  by_cases h64 : raw.length = 64
  · by_cases hh : raw.take 2 = HEADER
    · refine ⟨h64, hh, ?_⟩
      rw [decode, if_pos h64, if_pos hh] at h
      exact (Except.ok.inj h).symm
    · rw [decode, if_pos h64, if_neg hh] at h
      exact absurd h (by simp)
  · rw [decode, if_neg h64] at h
    exact absurd h (by simp)

theorem fieldBytes_congr {raw raw' : List ℕ} (off len : ℕ)
    (h : ∀ i, off ≤ i → i < off + len → raw.getD i 0 = raw'.getD i 0) :
    fieldBytes raw off len = fieldBytes raw' off len := by
  unfold fieldBytes
  apply List.map_congr_left
  intro j hj
  rw [List.mem_range] at hj
  exact h (off + j) (Nat.le_add_right _ _) (by omega)

/-- C4: `decode` reads a 64-byte frame at exactly the stated offsets —
header at 0–1, digital inputs at 2–9, TTL at 10–11, matrix row at 12–15,
sixteen 2-byte little-endian analog channels at 16–47, matrix data at
48–51, encoder at 52–59, absolute encoder at 60–63 — and no field depends
on any byte outside its stated range (two successfully decoded frames
that agree on a field's range agree on that field). -/
theorem c4_decode_offsets (raw raw' : List ℕ) (f f' : ResponseFrame)
    (hf : decode raw = .ok f) (hf' : decode raw' = .ok f') :
    (raw.length = 64 ∧ raw.take 2 = HEADER) ∧
    (f.digitalInputs.length = 8 ∧
      ∀ j, j < 8 → f.digitalInputs.getD j 0 = raw.getD (2 + j) 0) ∧
    (f.ttlStatus.length = 2 ∧
      ∀ j, j < 2 → f.ttlStatus.getD j 0 = raw.getD (10 + j) 0) ∧
    (f.matrixRow.length = 4 ∧
      ∀ j, j < 4 → f.matrixRow.getD j 0 = raw.getD (12 + j) 0) ∧
    (f.analog.length = 16 ∧
      ∀ k, k < 16 → f.analog.getD k 0 =
        raw.getD (16 + 2 * k) 0 + 256 * raw.getD (17 + 2 * k) 0) ∧
    (f.matrixData.length = 4 ∧
      ∀ j, j < 4 → f.matrixData.getD j 0 = raw.getD (48 + j) 0) ∧
    (f.encoder.length = 8 ∧
      ∀ j, j < 8 → f.encoder.getD j 0 = raw.getD (52 + j) 0) ∧
    (f.absEncoder.length = 4 ∧
      ∀ j, j < 4 → f.absEncoder.getD j 0 = raw.getD (60 + j) 0) ∧
    ((∀ i, 2 ≤ i → i < 10 → raw.getD i 0 = raw'.getD i 0) →
      f.digitalInputs = f'.digitalInputs) ∧
    ((∀ i, 10 ≤ i → i < 12 → raw.getD i 0 = raw'.getD i 0) →
      f.ttlStatus = f'.ttlStatus) ∧
    ((∀ i, 12 ≤ i → i < 16 → raw.getD i 0 = raw'.getD i 0) →
      f.matrixRow = f'.matrixRow) ∧
    ((∀ i, 16 ≤ i → i < 48 → raw.getD i 0 = raw'.getD i 0) →
      f.analog = f'.analog) ∧
    ((∀ i, 48 ≤ i → i < 52 → raw.getD i 0 = raw'.getD i 0) →
      f.matrixData = f'.matrixData) ∧
    ((∀ i, 52 ≤ i → i < 60 → raw.getD i 0 = raw'.getD i 0) →
      f.encoder = f'.encoder) ∧
    ((∀ i, 60 ≤ i → i < 64 → raw.getD i 0 = raw'.getD i 0) →
      f.absEncoder = f'.absEncoder) := by
  obtain ⟨h64, hh, hfe⟩ := decode_ok_elim hf
  obtain ⟨h64', hh', hfe'⟩ := decode_ok_elim hf'
  subst hfe hfe'
  refine ⟨⟨h64, hh⟩, ?_, ?_, ?_, ?_, ?_, ?_, ?_, ?_, ?_, ?_, ?_, ?_, ?_, ?_⟩
  · exact ⟨fieldBytes_length _ _ _,
      fun j hj => by rw [fieldBytes_getD, if_pos hj]⟩
  · exact ⟨fieldBytes_length _ _ _,
      fun j hj => by rw [fieldBytes_getD, if_pos hj]⟩
  · exact ⟨fieldBytes_length _ _ _,
      fun j hj => by rw [fieldBytes_getD, if_pos hj]⟩
  · refine ⟨by simp, fun k hk => ?_⟩
    rw [getD_map_range, if_pos hk, analogChannel]
  · exact ⟨fieldBytes_length _ _ _,
      fun j hj => by rw [fieldBytes_getD, if_pos hj]⟩
  · exact ⟨fieldBytes_length _ _ _,
      fun j hj => by rw [fieldBytes_getD, if_pos hj]⟩
  · exact ⟨fieldBytes_length _ _ _,
      fun j hj => by rw [fieldBytes_getD, if_pos hj]⟩
  · exact fun h => fieldBytes_congr 2 8 (fun i h1 h2 => h i h1 h2)
  · exact fun h => fieldBytes_congr 10 2 (fun i h1 h2 => h i h1 h2)
  · exact fun h => fieldBytes_congr 12 4 (fun i h1 h2 => h i h1 h2)
  · intro h
    apply List.map_congr_left
    intro k hk
    rw [List.mem_range] at hk
    rw [analogChannel, analogChannel,
      h (16 + 2 * k) (by omega) (by omega),
      h (17 + 2 * k) (by omega) (by omega)]
  · exact fun h => fieldBytes_congr 48 4 (fun i h1 h2 => h i h1 h2)
  · exact fun h => fieldBytes_congr 52 8 (fun i h1 h2 => h i h1 h2)
  · exact fun h => fieldBytes_congr 60 4 (fun i h1 h2 => h i h1 h2)

/-- C5: for every well-formed 64-byte frame with the correct header,
`decode` succeeds, and encoding the matrix-owned fields of the decoded
frame back into the frame and decoding again yields exactly the same
matrix state. -/
theorem c5_matrix_roundtrip (raw : List ℕ) (h64 : raw.length = 64)
    (hh : raw.take 2 = HEADER) :
    ∃ f, decode raw = .ok f ∧
      ∃ f', decode (encodeMatrix (matrixFieldsOf f) raw) = .ok f' ∧
        matrixFieldsOf f' = matrixFieldsOf f := by
  have hf : decode raw = .ok
      { digitalInputs := fieldBytes raw 2 8
        ttlStatus := fieldBytes raw 10 2
        matrixRow := fieldBytes raw 12 4
        analog := (List.range 16).map (analogChannel raw)
        matrixData := fieldBytes raw 48 4
        encoder := fieldBytes raw 52 8
        absEncoder := fieldBytes raw 60 4 } := by
    rw [decode, if_pos h64, if_pos hh]
  refine ⟨_, hf, ?_⟩
  have henc : encodeMatrix
      (matrixFieldsOf
        { digitalInputs := fieldBytes raw 2 8
          ttlStatus := fieldBytes raw 10 2
          matrixRow := fieldBytes raw 12 4
          analog := (List.range 16).map (analogChannel raw)
          matrixData := fieldBytes raw 48 4
          encoder := fieldBytes raw 52 8
          absEncoder := fieldBytes raw 60 4 }) raw = raw := by
    rw [encodeMatrix, matrixFieldsOf]
    rw [writeBytes_fieldBytes raw 12 4 (by omega)]
    rw [writeBytes_fieldBytes raw 48 4 (by omega)]
  rw [henc]
  exact ⟨_, hf, rfl⟩

/-- Witness for C4 on a concrete all-zero-payload frame. -/
theorem c4_decode_offsets_witness :
    decode (HEADER ++ List.replicate 62 0) =
      .ok ⟨List.replicate 8 0, List.replicate 2 0, List.replicate 4 0,
        List.replicate 16 0, List.replicate 4 0, List.replicate 8 0,
        List.replicate 4 0⟩ ∧
    (List.replicate 8 (0 : ℕ)).getD 0 0 =
      (HEADER ++ List.replicate 62 0).getD 2 0 ∧
    (List.replicate 16 (0 : ℕ)).getD 3 0 =
      (HEADER ++ List.replicate 62 0).getD 22 0 +
        256 * (HEADER ++ List.replicate 62 0).getD 23 0 := by
  have hf : decode (HEADER ++ List.replicate 62 0) =
      .ok ⟨List.replicate 8 0, List.replicate 2 0, List.replicate 4 0,
        List.replicate 16 0, List.replicate 4 0, List.replicate 8 0,
        List.replicate 4 0⟩ := by rfl
  have h := c4_decode_offsets _ _ _ _ hf hf
  refine ⟨hf, ?_, ?_⟩
  · exact h.2.1.2 0 (by decide)
  · exact h.2.2.2.2.1.2 3 (by decide)

/-- Witness for C5 on a concrete all-zero-payload frame. -/
theorem c5_matrix_roundtrip_witness :
    ∃ f, decode (HEADER ++ List.replicate 62 0) = .ok f ∧
      ∃ f', decode (encodeMatrix (matrixFieldsOf f)
          (HEADER ++ List.replicate 62 0)) = .ok f' ∧
        matrixFieldsOf f' = matrixFieldsOf f :=
  c5_matrix_roundtrip (HEADER ++ List.replicate 62 0) (by decide) (by decide)
